import Mathlib

/-!
Shallow embedding of the WaveJudge worker core (judge engine, sandbox
daemon, seccomp application, worker and problem-store logic, object ids and
the tokenized reader), together with theorems settling the frozen claims
about it. Every definition is translated from the Rust sources of the
repository; machine integers are modelled as Nat or Int, Rust Result and
panics as Option or Except, and byte strings as lists of byte values.
-/

namespace WaveJudge

/-! ## judge crate: core data model (judge/src/lib.rs) -/

/-- Verdict of the judge (judge/src/lib.rs, enum Verdict). -/
inductive Verdict where
  | Accepted
  | WrongAnswer
  | RuntimeError
  | TimeLimitExceeded
  | MemoryLimitExceeded
  | IdlenessLimitExceeded
  | BannedSystemCall
  | CheckerFailed
  | InteractorFailed
deriving DecidableEq, Repr

/-- Verdict::is_accepted (judge/src/lib.rs). -/
def Verdict.is_accepted : Verdict → Bool
  | Verdict.Accepted => true
  | _ => false

/-- Verdict::and, the effect of the BitAnd and BitAndAssign impls
(judge/src/lib.rs): if self is Accepted the result is rhs, otherwise self is
kept. -/
def Verdict.and (self rhs : Verdict) : Verdict :=
  if self.is_accepted then rhs else self

/-- ProcessExitStatus (sandbox/src/lib.rs). Exit codes and signals are the
Rust i32 values, modelled as Int. -/
inductive ProcessExitStatus where
  | NotExited
  | Normal (code : Int)
  | KilledBySignal (sig : Int)
  | CPUTimeLimitExceeded
  | RealTimeLimitExceeded
  | MemoryLimitExceeded
  | BannedSyscall
deriving DecidableEq, Repr

/-- ProcessResourceUsage (sandbox/src/lib.rs). Durations are in
nanoseconds and memory sizes in bytes, both as Nat. -/
structure ProcessResourceUsage where
  user_cpu_time : Nat
  kernel_cpu_time : Nat
  virtual_mem_size : Nat
  resident_set_size : Nat
deriving DecidableEq, Repr

/-- ProcessResourceUsage::new (sandbox/src/lib.rs). -/
def ProcessResourceUsage.new : ProcessResourceUsage :=
  { user_cpu_time := 0
    kernel_cpu_time := 0
    virtual_mem_size := 0
    resident_set_size := 0 }

/-- ProcessResourceUsage::cpu_time (sandbox/src/lib.rs): the sum of user
and kernel cpu time. -/
def ProcessResourceUsage.cpu_time (self : ProcessResourceUsage) : Nat :=
  self.user_cpu_time + self.kernel_cpu_time

/-- ProcessResourceUsage::update (sandbox/src/lib.rs): each field is
replaced by the other value whenever the other value is larger. -/
def ProcessResourceUsage.update (self other : ProcessResourceUsage) :
    ProcessResourceUsage :=
  { user_cpu_time :=
      if other.user_cpu_time > self.user_cpu_time
      then other.user_cpu_time else self.user_cpu_time
    kernel_cpu_time :=
      if other.kernel_cpu_time > self.kernel_cpu_time
      then other.kernel_cpu_time else self.kernel_cpu_time
    virtual_mem_size :=
      if other.virtual_mem_size > self.virtual_mem_size
      then other.virtual_mem_size else self.virtual_mem_size
    resident_set_size :=
      if other.resident_set_size > self.resident_set_size
      then other.resident_set_size else self.resident_set_size }

/-- TestCaseResult (judge/src/lib.rs): verdict, exit statuses, resource
usage, comment and data views of one judged test case. -/
structure TestCaseResult where
  verdict : Verdict
  judgee_exit_status : ProcessExitStatus
  checker_exit_status : Option ProcessExitStatus
  interactor_exit_status : Option ProcessExitStatus
  rusage : ProcessResourceUsage
  comment : Option String
  input_view : Option String
  answer_view : Option String
  output_view : Option String
  error_view : Option String
deriving DecidableEq, Repr

/-- TestCaseResult::new (judge/src/lib.rs). -/
def TestCaseResult.new : TestCaseResult :=
  { verdict := Verdict.Accepted
    judgee_exit_status := ProcessExitStatus.NotExited
    checker_exit_status := none
    interactor_exit_status := none
    rusage := ProcessResourceUsage.new
    comment := none
    input_view := none
    answer_view := none
    output_view := none
    error_view := none }

/-- JudgeResult (judge/src/lib.rs): overall verdict, aggregate resource
usage and the results of the executed test cases. -/
structure JudgeResult where
  verdict : Verdict
  rusage : ProcessResourceUsage
  test_suite : List TestCaseResult
deriving DecidableEq, Repr

/-- JudgeResult::new (judge/src/lib.rs): the empty judge result. -/
def JudgeResult.new : JudgeResult :=
  { verdict := Verdict.Accepted
    rusage := ProcessResourceUsage.new
    test_suite := [] }

/-- JudgeResult::add_test_case_result (judge/src/lib.rs): ANDs the verdict,
updates the aggregate usage and appends the test case result. -/
def JudgeResult.add_test_case_result (self : JudgeResult)
    (result : TestCaseResult) : JudgeResult :=
  { verdict := self.verdict.and result.verdict
    rusage := self.rusage.update result.rusage
    test_suite := self.test_suite ++ [result] }

/-- Any sequence of add_test_case_result calls, in order. -/
def JudgeResult.add_all (self : JudgeResult) (results : List TestCaseResult) :
    JudgeResult :=
  results.foldl JudgeResult.add_test_case_result self

/-- The fold of the test case verdicts under Verdict::and with Accepted as
the identity (the formula of the claim on the overall verdict). -/
def foldVerdicts (results : List TestCaseResult) : Verdict :=
  results.foldl (fun v r => v.and r.verdict) Verdict.Accepted

/-- The verdict of the first non-Accepted test case result, if one exists. -/
def firstNonAccepted (results : List TestCaseResult) : Option Verdict :=
  (results.find? (fun r => !r.verdict.is_accepted)).map TestCaseResult.verdict

/-! ## judge crate: judge loop (judge/src/engine/mod.rs and the superseded
judge/src/engine.rs)

A test case descriptor names its input and answer file. The effect of one
test case execution (executor.before, the mode dispatch and executor.after
in engine/mod.rs) is a TestCaseResult per descriptor; the successful
execution of a whole task is modelled with that per-case outcome as an
explicit function, error returns of the executor abort the whole judge and
produce no JudgeResult, so they do not appear in claims about completed
tasks. -/

/-- TestCaseDescriptor (judge/src/lib.rs). -/
structure TestCaseDescriptor where
  input_file : String
  answer_file : String
deriving DecidableEq, Repr

namespace JudgeContext

/-- JudgeContext::execute (judge/src/engine/mod.rs, lines 406 to 434): for
every test case of the suite, in order, run the executor and append the
test case result to the overall result. The loop has no early exit. -/
def execute (test_suite : List TestCaseDescriptor)
    (executor : TestCaseDescriptor → TestCaseResult) : JudgeResult :=
  test_suite.foldl
    (fun res tc => res.add_test_case_result (executor tc))
    JudgeResult.new

end JudgeContext

namespace JudgeEngine

/-- Loop body of JudgeEngine::judge_on_context from the superseded flat
module judge/src/engine.rs (lines 240 to 255): append each test case result
and break as soon as the overall verdict is no longer accepted. -/
def judge_on_context_go (res : JudgeResult) :
    List TestCaseDescriptor → (TestCaseDescriptor → TestCaseResult) →
    JudgeResult
  | [], _ => res
  | tc :: rest, executor =>
    let res' := res.add_test_case_result (executor tc)
    if res'.verdict.is_accepted then judge_on_context_go res' rest executor
    else res'

/-- JudgeEngine::judge_on_context (judge/src/engine.rs, the superseded
fail-fast judge loop). -/
def judge_on_context (test_suite : List TestCaseDescriptor)
    (executor : TestCaseDescriptor → TestCaseResult) : JudgeResult :=
  judge_on_context_go JudgeResult.new test_suite executor

end JudgeEngine

/-! Concrete inputs for the judge-loop claims: a two-case test suite whose
first case is judged WrongAnswer and whose second case would be Accepted. -/

/-- A test case result with the given verdict and otherwise fresh fields. -/
def tcResultWith (v : Verdict) : TestCaseResult :=
  { TestCaseResult.new with
      verdict := v
      judgee_exit_status := ProcessExitStatus.Normal 0 }

/-- First example test case. -/
def tcDesc1 : TestCaseDescriptor := { input_file := "1.in", answer_file := "1.ans" }

/-- Second example test case. -/
def tcDesc2 : TestCaseDescriptor := { input_file := "2.in", answer_file := "2.ans" }

/-- Example executor: the first test case fails with WrongAnswer, every
other test case is Accepted. -/
def execWaFirst (tc : TestCaseDescriptor) : TestCaseResult :=
  if tc.input_file = "1.in" then tcResultWith Verdict.WrongAnswer
  else tcResultWith Verdict.Accepted

/-! ## sandbox crate: process builder (sandbox/src/lib.rs) -/

/-- SystemCall (sandbox/src/lib.rs): a syscall name with its kernel id. -/
structure SystemCall where
  name : String
  id : Int
deriving DecidableEq, Repr

/-- ProcessResourceLimits (sandbox/src/lib.rs). Time limits are in
nanoseconds, the memory limit in bytes; None means no constraint. -/
structure ProcessResourceLimits where
  cpu_time_limit : Option Nat
  real_time_limit : Option Nat
  memory_limit : Option Nat
deriving DecidableEq, Repr

/-- ProcessResourceLimits::empty (sandbox/src/lib.rs). -/
def ProcessResourceLimits.empty : ProcessResourceLimits :=
  { cpu_time_limit := none, real_time_limit := none, memory_limit := none }

/-- ProcessDirectory (sandbox/src/lib.rs). -/
structure ProcessDirectory where
  working_dir : Option String
  root_dir : Option String
deriving DecidableEq, Repr

/-- ProcessBuilder (sandbox/src/lib.rs) without the redirection slots,
which hold process-level file handles and are not part of the plain data
the claims are about. -/
structure ProcessBuilder where
  file : String
  args : List String
  envs : List (String × String)
  dir : ProcessDirectory
  limits : ProcessResourceLimits
  use_native_rlimit : Bool
  uid : Option Nat
  syscall_whitelist : List SystemCall
deriving DecidableEq, Repr

/-- misc::is_valid_c_string (sandbox/src/misc.rs): no embedded NUL byte. -/
def is_valid_c_string (s : String) : Bool :=
  s.toList.all (fun c => c.toNat ≠ 0)

/-- ProcessBuilder::new (sandbox/src/lib.rs): the path to the executable
file becomes the first argument of the program. -/
def ProcessBuilder.new (file : String) : ProcessBuilder :=
  { file := file
    args := [file]
    envs := []
    dir := { working_dir := none, root_dir := none }
    limits := ProcessResourceLimits.empty
    use_native_rlimit := false
    uid := none
    syscall_whitelist := [] }

/-- ProcessBuilder::add_env (sandbox/src/lib.rs): rejects names or values
that are not valid C strings (the equal-sign cases are only logged). None
models the Err return. -/
def ProcessBuilder.add_env (self : ProcessBuilder) (name value : String) :
    Option ProcessBuilder :=
  if ¬is_valid_c_string name then none
  else if ¬is_valid_c_string value then none
  else some { self with envs := self.envs ++ [(name, value)] }

/-! ## sandbox crate: seccomp application (sandbox/src/seccomp.rs and
ProcessBuilder::apply_seccomp in sandbox/src/lib.rs) -/

/-- seccomp::Action (sandbox/src/seccomp.rs). Per Action::as_native,
KillThread is the native SCMP_ACT_KILL and KillProcess is
SCMP_ACT_KILL_PROCESS. -/
inductive Action where
  | Allow
  | KillThread
  | KillProcess
  | Trap
  | Errno (errno : Nat)
  | Trace (sig : Nat)
deriving DecidableEq, Repr

/-- seccomp::SyscallFilter (sandbox/src/seccomp.rs). -/
structure SyscallFilter where
  syscall : Int
  action : Action
deriving DecidableEq, Repr

/-- The seccomp filter program that seccomp::apply_syscall_filters loads
into the kernel: a default action and one rule per filter. -/
structure SeccompFilterSpec where
  default_action : Action
  rules : List SyscallFilter
deriving DecidableEq, Repr

/-- seccomp::apply_syscall_filters (sandbox/src/seccomp.rs, lines 102 to
131): the filter context is created with seccomp_init(SCMP_ACT_KILL), which
is the kill-thread action (a TODO in the source plans to move to
SCMP_ACT_KILL_PROCESS after a kernel upgrade), then one rule per element of
the iterator is added and the filter is loaded. The error paths of the
native library calls are environment failures and are not modelled. -/
def apply_syscall_filters (filters : List SyscallFilter) : SeccompFilterSpec :=
  { default_action := Action.KillThread
    rules := filters }

/-- ProcessBuilder::apply_seccomp (sandbox/src/lib.rs, lines 496 to 509):
nothing is installed when the whitelist is empty; otherwise every
whitelisted syscall id becomes an Allow rule. -/
def ProcessBuilder.apply_seccomp (self : ProcessBuilder) :
    Option SeccompFilterSpec :=
  if self.syscall_whitelist.isEmpty then none
  else some (apply_syscall_filters
    (self.syscall_whitelist.map
      (fun syscall => { syscall := syscall.id, action := Action.Allow })))

/-- Example whitelist entry for the seccomp claims. -/
def readSyscall : SystemCall := { name := "read", id := 0 }

/-- Example builder with a one-element syscall whitelist. -/
def builderWithWhitelist : ProcessBuilder :=
  { ProcessBuilder.new "/bin/judgee" with syscall_whitelist := [readSyscall] }

/-! ## judge crate: jury builder configuration
(judge/src/engine/mod.rs, JudgeEngine::apply_jury_bdr_config) -/

/-- JudgeEngineConfig (judge/src/engine/mod.rs). -/
structure JudgeEngineConfig where
  judge_uid : Option Nat
  judge_dir : Option String
  judgee_syscall_whitelist : List SystemCall
  jury_cpu_time_limit : Option Nat
  jury_real_time_limit : Option Nat
  jury_memory_limit : Option Nat
  jury_syscall_whitelist : List SystemCall
deriving Repr

/-- JudgeEngineConfig::new (judge/src/engine/mod.rs). -/
def JudgeEngineConfig.new : JudgeEngineConfig :=
  { judge_uid := none
    judge_dir := none
    judgee_syscall_whitelist := []
    jury_cpu_time_limit := none
    jury_real_time_limit := none
    jury_memory_limit := none
    jury_syscall_whitelist := [] }

/-- JudgeEngine::apply_jury_bdr_config (judge/src/engine/mod.rs, lines 320
to 339): add ONLINE_JUDGE=YES (the expect on failure is modelled as None),
copy the jury cpu time limit only when the configured limit is None (the
source guards this branch with is_none, unlike its two siblings), copy the
jury real time and memory limits when they are Some, and append the jury
syscall whitelist. -/
def JudgeEngine.apply_jury_bdr_config (config : JudgeEngineConfig)
    (jury_bdr : ProcessBuilder) : Option ProcessBuilder :=
  match jury_bdr.add_env "ONLINE_JUDGE" "YES" with
  | none => none
  | some b0 =>
    let b1 := if config.jury_cpu_time_limit.isNone
      then { b0 with limits.cpu_time_limit := config.jury_cpu_time_limit }
      else b0
    let b2 := if config.jury_real_time_limit.isSome
      then { b1 with limits.real_time_limit := config.jury_real_time_limit }
      else b1
    let b3 := if config.jury_memory_limit.isSome
      then { b2 with limits.memory_limit := config.jury_memory_limit }
      else b2
    some { b3 with
      syscall_whitelist := b3.syscall_whitelist ++ config.jury_syscall_whitelist }

/-- Example engine configuration in which all three jury limits are
specified, as the fork server always does (forkserver/core.rs sets all
three to Some). Times in nanoseconds, memory in bytes. -/
def juryConfigEx : JudgeEngineConfig :=
  { JudgeEngineConfig.new with
      jury_cpu_time_limit := some 1000000000
      jury_real_time_limit := some 3000000000
      jury_memory_limit := some (256 * 1024 * 1024)
      jury_syscall_whitelist := [readSyscall] }

/-- Example jury process builder before configuration. -/
def juryBuilderEx : ProcessBuilder := ProcessBuilder.new "/opt/checker"

/-! ## sandbox crate: monitor daemon (sandbox/src/daemon.rs)

The daemon thread observes the child through waitpid and /proc samples;
those observations are the inputs of the embedded daemon loop. A finite
observation trace either drives the loop to a result (the child exits or a
limit trips) or leaves it still polling. -/

/-- nix WaitStatus as matched by daemon_main: an exit with a code, a
termination by a signal, or no state change yet (WNOHANG). Stopped and
continued states take the same fall-through branch as StillAlive and are
subsumed by it. -/
inductive WaitStatus where
  | Exited (code : Int)
  | Signaled (sig : Int)
  | StillAlive
deriving DecidableEq, Repr

/-- Signal number of SIGUSR1 on Linux, the child startup failure signal. -/
def SIGUSR1 : Int := 10

/-- Signal number of SIGSYS on Linux, delivered on a seccomp kill. -/
def SIGSYS : Int := 31

/-- One iteration of observations available to the daemon loop: the
waitpid outcome (Except models a waitpid error), the /proc resource sample
(Except models a read failure) and elapsed real time in nanoseconds. -/
structure DaemonStep where
  wait : Except Int WaitStatus
  sample : Except Int ProcessResourceUsage
  elapsed : Nat
deriving Repr

/-- The error returns of daemon_main (sandbox/src/daemon.rs): the child
killed itself with SIGUSR1 during startup, a waitpid error, or a resource
sampling error. -/
inductive DaemonError where
  | ChildStartupFailed
  | WaitFailed (errno : Int)
  | RusageFailed (errno : Int)
deriving DecidableEq, Repr

/-- daemon_check_limits (sandbox/src/daemon.rs, lines 106 to 127):
compare the running usage and elapsed real time against the daemon limits,
in the order cpu time, real time, memory. -/
def daemon_check_limits (limits : ProcessResourceLimits)
    (usage : ProcessResourceUsage) (real_time_elapsed : Nat) :
    Option ProcessExitStatus :=
  if limits.cpu_time_limit.isSome ∧
      usage.cpu_time > limits.cpu_time_limit.getD 0 then
    some ProcessExitStatus.CPUTimeLimitExceeded
  else if limits.real_time_limit.isSome ∧
      real_time_elapsed > limits.real_time_limit.getD 0 then
    some ProcessExitStatus.RealTimeLimitExceeded
  else if limits.memory_limit.isSome ∧
      usage.virtual_mem_size > limits.memory_limit.getD 0 then
    some ProcessExitStatus.MemoryLimitExceeded
  else none

/-- daemon_update_rusage (sandbox/src/daemon.rs, lines 129 to 140): merge
the fresh sample into the stored statistics and return the newest value. -/
def daemon_update_rusage (current : ProcessResourceUsage)
    (old : Option ProcessResourceUsage) : ProcessResourceUsage :=
  match old with
  | some o => o.update current
  | none => current

/-- daemon_main (sandbox/src/daemon.rs, lines 146 to 212), driven by a
finite observation trace. Each loop iteration consumes one DaemonStep:
waitpid first (Exited, SIGSYS, SIGUSR1 and other signals return
immediately), then the resource sample is merged, then, when daemon limits
are present, the limits are checked. Some carries the loop result (itself
an Except, since daemon_main can fail); none means the trace ended with
the daemon still polling. -/
def daemon_main (limits : Option ProcessResourceLimits) :
    List DaemonStep → Option ProcessResourceUsage →
    Option (Except DaemonError ProcessExitStatus)
  | [], _ => none
  | step :: rest, rusage =>
    match step.wait with
    | Except.error errno => some (Except.error (DaemonError.WaitFailed errno))
    | Except.ok (WaitStatus.Exited code) =>
      some (Except.ok (ProcessExitStatus.Normal code))
    | Except.ok (WaitStatus.Signaled sig) =>
      if sig = SIGSYS then some (Except.ok ProcessExitStatus.BannedSyscall)
      else if sig = SIGUSR1 then
        some (Except.error DaemonError.ChildStartupFailed)
      else some (Except.ok (ProcessExitStatus.KilledBySignal sig))
    | Except.ok WaitStatus.StillAlive =>
      match step.sample with
      | Except.error errno =>
        some (Except.error (DaemonError.RusageFailed errno))
      | Except.ok current =>
        let overall := daemon_update_rusage current rusage
        match limits with
        | some daemon_limits =>
          match daemon_check_limits daemon_limits overall step.elapsed with
          | some status => some (Except.ok status)
          | none => daemon_main limits rest (some overall)
        | none => daemon_main limits rest (some overall)

/-- The closure spawned by daemon::start (sandbox/src/daemon.rs, lines 203
to 212): on an Ok result of daemon_main the exit status cell is
overwritten; on an Err the thread panics and the cell keeps its initial
NotExited value. The cell starts as NotExited (ProcessDaemonContext::new). -/
def daemon_thread_stored_status (limits : Option ProcessResourceLimits)
    (trace : List DaemonStep) : ProcessExitStatus :=
  match daemon_main limits trace none with
  | some (Except.ok status) => status
  | _ => ProcessExitStatus.NotExited

/-- Whether Process::wait_for_exit (sandbox/src/lib.rs, lines 854 to 871)
returns at all for this trace: joining the daemon thread completes exactly
when daemon_main finished, normally or by panicking (a panic surfaces as
the Err(DaemonFailed) return of wait_for_exit). -/
def wait_for_exit_returns (limits : Option ProcessResourceLimits)
    (trace : List DaemonStep) : Bool :=
  (daemon_main limits trace none).isSome

/-- Whether Process::wait_for_exit returns Ok(()) for this trace: the
daemon thread finished without panicking. -/
def wait_for_exit_ok (limits : Option ProcessResourceLimits)
    (trace : List DaemonStep) : Bool :=
  match daemon_main limits trace none with
  | some (Except.ok _) => true
  | _ => false

/-- Process::exit_status (sandbox/src/lib.rs) reads the shared status cell
written by the daemon thread. -/
def Process.exit_status (limits : Option ProcessResourceLimits)
    (trace : List DaemonStep) : ProcessExitStatus :=
  daemon_thread_stored_status limits trace

/-- Example trace: the first waitpid reports the child killed by SIGUSR1,
the self-kill signal of a failed child startup. -/
def traceStartupFailed : List DaemonStep :=
  [{ wait := Except.ok (WaitStatus.Signaled SIGUSR1)
     sample := Except.ok ProcessResourceUsage.new
     elapsed := 0 }]

/-- Example trace: the child exits normally with code 0. -/
def traceExitZero : List DaemonStep :=
  [{ wait := Except.ok (WaitStatus.Exited 0)
     sample := Except.ok ProcessResourceUsage.new
     elapsed := 0 }]

/-! ## judge crate: compilation results (judge/src/lib.rs) -/

/-- CompilationResult (judge/src/lib.rs): success flag, optional compiler
output text and optional produced file path. The fork server
(driver/src/forkserver) passes these values through unchanged. -/
structure CompilationResult where
  succeeded : Bool
  compiler_out : Option String
  output_file : Option String
deriving DecidableEq, Repr

/-- CompilationResult::succeed (judge/src/lib.rs, lines 97 to 106): a
successful result carries the output file and no compiler output. -/
def CompilationResult.succeed (output_file : String) : CompilationResult :=
  { succeeded := true
    compiler_out := none
    output_file := some output_file }

/-- CompilationResult::fail (judge/src/lib.rs, lines 108 to 116). -/
def CompilationResult.fail (compiler_out : String) : CompilationResult :=
  { succeeded := false
    compiler_out := some compiler_out
    output_file := none }

/-! ## driver crate: REST entities (driver/src/restful/entities.rs) -/

namespace Driver

/-- Verdict of the REST protocol (driver/src/restful/entities.rs). -/
inductive Verdict where
  | Accepted
  | CompilationFailed
  | WrongAnswer
  | RuntimeError
  | TimeLimitExceeded
  | MemoryLimitExceeded
  | IdlenessLimitExceeded
  | BadSystemCall
  | CheckerCompilationFailed
  | CheckerFailed
  | InteractorCompilationFailed
  | InteractorFailed
  | JudgeFailed
deriving DecidableEq, Repr

/-- JudgeMode of the REST protocol (driver/src/restful/entities.rs). -/
inductive JudgeMode where
  | Standard
  | SpecialJudge
  | Interactive
deriving DecidableEq, Repr

/-- LanguageTriple (driver/src/restful/entities.rs). -/
structure LanguageTriple where
  identifier : String
  dialect : String
  version : String
deriving DecidableEq, Repr

/-- TestCaseJudgeResult (driver/src/restful/entities.rs). -/
structure TestCaseJudgeResult where
  verdict : Verdict
  time : Nat
  memory : Nat
  exit_code : Int
  input_view : String
  answer_view : String
  output_view : String
  comment : String
deriving DecidableEq, Repr

/-- SubmissionJudgeResult (driver/src/restful/entities.rs). -/
structure SubmissionJudgeResult where
  verdict : Verdict
  compiler_message : String
  time : Nat
  memory : Nat
  test_cases : List TestCaseJudgeResult
deriving DecidableEq, Repr

/-- SubmissionJudgeResultExt::failure (driver/src/workers.rs, lines 58 to
68): verdict JudgeFailed, the given message, zero usage, no test cases. -/
def SubmissionJudgeResult.failure (message : String) : SubmissionJudgeResult :=
  { verdict := Verdict.JudgeFailed
    compiler_message := message
    time := 0
    memory := 0
    test_cases := [] }

/-- SubmissionJudgeResultExt::compilation_failed (driver/src/workers.rs,
lines 70 to 76). -/
def SubmissionJudgeResult.compilation_failed (message : String) :
    SubmissionJudgeResult :=
  { SubmissionJudgeResult.failure message with
      verdict := Verdict.CompilationFailed }

/-! ## driver crate: problem metadata (driver/src/storage/problems.rs) -/

/-- ProblemMetadata (driver/src/storage/problems.rs). Object ids appear as
their 24-character string form and paths as strings. -/
structure ProblemMetadata where
  id : String
  judge_mode : JudgeMode
  time_limit : Nat
  memory_limit : Nat
  jury_src : Option String
  jury_lang : Option LanguageTriple
  jury_exec_path : Option String
  archive_id : String
  timestamp : Nat
deriving DecidableEq, Repr

/-- ProblemMetadata::has_jury (driver/src/storage/problems.rs, lines 137
to 144). -/
def ProblemMetadata.has_jury (self : ProblemMetadata) : Bool :=
  match self.judge_mode with
  | JudgeMode.SpecialJudge | JudgeMode.Interactive => true
  | _ => false

/-- ProblemMetadata::jury_compile_succeeded (driver/src/storage/problems.rs,
lines 146 to 149). -/
def ProblemMetadata.jury_compile_succeeded (self : ProblemMetadata) : Bool :=
  self.jury_exec_path.isSome

/-! ## driver crate: worker logic (driver/src/workers.rs) -/

/-- The jury guard of handle_submission (driver/src/workers.rs, lines 99
to 103): when the problem has a jury whose compilation did not succeed,
the worker returns Ok with a failure result (so the submission is still
reported); otherwise it continues. Some models the early Ok return. -/
def handle_submission_jury_guard (problem : ProblemMetadata) :
    Option SubmissionJudgeResult :=
  if problem.has_jury ∧ ¬problem.jury_compile_succeeded then
    some (SubmissionJudgeResult.failure
      "Answer checker did not compiled successfully.")
  else none

/-- Outcome of the compile stage of handle_submission. -/
inductive CompileStageOutcome where
  | report (result : SubmissionJudgeResult)
  | proceed (exec_path : String)
  | panicked
deriving DecidableEq, Repr

/-- The compile stage of handle_submission (driver/src/workers.rs, lines
105 to 119): on compilation failure the worker reports a
CompilationFailed result; otherwise it takes the executable path from
compile_result.compiler_out via expect, whose panic on None is the
panicked outcome. -/
def handle_submission_compile_stage (compile_result : CompilationResult) :
    CompileStageOutcome :=
  if ¬compile_result.succeeded then
    CompileStageOutcome.report
      (SubmissionJudgeResult.compilation_failed
        (compile_result.compiler_out.getD ""))
  else
    match compile_result.compiler_out with
    | some exec_path => CompileStageOutcome.proceed exec_path
    | none => CompileStageOutcome.panicked

/-! ## driver crate: problem store (driver/src/storage/problems.rs) -/

/-- ProblemStore::compile_jury (driver/src/storage/problems.rs, lines 333
to 356), applied to the compilation result received from the fork server.
The outer Option models a panic (the final output_file.unwrap), the inner
Option is the Ok payload: none when the jury program could not be
compiled. The source returns Ok(None) when succeeded is false, and also
when compiler_out is None, before unwrapping output_file. -/
def ProblemStore.compile_jury (result : CompilationResult) :
    Option (Option String) :=
  if ¬result.succeeded then some none
  else if result.compiler_out.isNone then some none
  else
    match result.output_file with
    | some path => some (some path)
    | none => none

/-- The last path component of a path string. -/
def path_file_name (p : String) : String :=
  (p.splitOn "/").getLastD ""

/-- PathBuf::extension: none when the file name has no dot or only a
leading dot, otherwise the portion after the final dot. -/
def path_extension (p : String) : Option String :=
  match (path_file_name p).splitOn "." with
  | [] => none
  | [_] => none
  | ["", _] => none
  | parts => parts.getLast?

/-- The jury executable destination path built by ProblemStore::get:
jury_dir push problem id, then set_extension when the temporary output had
one. The problem id is pure hex, so it has no dot and set_extension
appends the extension after a dot. -/
def make_jury_exec_path (jury_dir id_str : String) (ext : Option String) :
    String :=
  jury_dir ++ "/" ++ id_str ++ (match ext with
    | some e => "." ++ e
    | none => "")

/-- The jury branch of ProblemStore::get (driver/src/storage/problems.rs,
lines 390 to 419) for a problem that has a jury: compile the jury, and
when compile_jury returns a path, copy the binary to
jury_dir/problem_id with the extension of the temporary path and record
that destination; otherwise leave jury_exec_path as None. The outer Option
models a panic propagated from compile_jury; the filesystem copy is
modelled as succeeding. -/
def ProblemStore.get_jury_exec_path (jury_dir id_str : String)
    (compile_result : CompilationResult) : Option (Option String) :=
  match ProblemStore.compile_jury compile_result with
  | none => none
  | some none => some none
  | some (some temp_path) =>
    some (some (make_jury_exec_path jury_dir id_str
      (path_extension temp_path)))

/-- Example problem metadata: a Special Judge problem whose jury program
failed to compile, so its cached jury_exec_path is None. -/
def problemJuryFailedEx : ProblemMetadata :=
  { id := "0123456789abcdef01234567"
    judge_mode := JudgeMode.SpecialJudge
    time_limit := 1000
    memory_limit := 256
    jury_src := some "checker source text"
    jury_lang := some { identifier := "cpp", dialect := "gnu", version := "c++17" }
    jury_exec_path := none
    archive_id := "89abcdef0123456789abcdef"
    timestamp := 7 }

/-- Example problem metadata: an Interactive problem whose jury program
failed to compile. -/
def problemInteractiveFailedEx : ProblemMetadata :=
  { problemJuryFailedEx with judge_mode := JudgeMode.Interactive }

end Driver

/-- Example compilation result of a successful jury or judgee compile, as
produced by CompilationResult::succeed in the judge engine and forwarded
unchanged by the fork server. -/
def compileOkEx : CompilationResult := CompilationResult.succeed "/tmp/xyz/jury.out"

/-! ## driver crate: object ids (driver/src/common.rs, lines 19 to 46)

Strings are modelled at the byte level as lists of byte values (the source
indexes the str by bytes as well). -/

namespace Driver

/-- Whether a byte is an ASCII hexadecimal digit. -/
def is_hex_digit_byte (b : Nat) : Bool :=
  (48 ≤ b && b ≤ 57) || (97 ≤ b && b ≤ 102) || (65 ≤ b && b ≤ 70)

/-- The numeric value of an ASCII hexadecimal digit byte, as computed by
the standard library digit parsing used by u8::from_str_radix. -/
def hex_digit_value (b : Nat) : Option Nat :=
  if 48 ≤ b ∧ b ≤ 57 then some (b - 48)
  else if 97 ≤ b ∧ b ≤ 102 then some (b - 97 + 10)
  else if 65 ≤ b ∧ b ≤ 70 then some (b - 65 + 10)
  else none

/-- ASCII lowercasing of one byte. -/
def ascii_lowercase_byte (b : Nat) : Nat :=
  if 65 ≤ b ∧ b ≤ 90 then b + 32 else b

/-- u8::from_str_radix(s, 16) of the Rust core library on a byte string:
an optional leading plus sign (a minus sign is not stripped for unsigned
types), then at least one hexadecimal digit, accumulated with checked
arithmetic that fails above 255. -/
def u8_from_str_radix_16 (src : List Nat) : Option Nat :=
  match src with
  | [] => none
  | b :: rest =>
    let digits := if b = 43 then rest else b :: rest
    if digits.isEmpty then none
    else digits.foldl (fun acc d =>
      match acc, hex_digit_value d with
      | some v, some dv =>
        if v * 16 + dv ≤ 255 then some (v * 16 + dv) else none
      | _, _ => none) (some 0)

/-- ObjectId (driver/src/common.rs): 12 raw bytes. -/
structure ObjectId where
  data : List Nat
deriving DecidableEq, Repr

/-- The chunk loop of ObjectId::from_str: the 24-byte string is consumed
two bytes at a time, each pair parsed by u8::from_str_radix(s, 16). -/
def ObjectId.from_str_chunks : List Nat → Option (List Nat)
  | [] => some []
  | a :: b :: rest =>
    match u8_from_str_radix_16 [a, b], ObjectId.from_str_chunks rest with
    | some v, some vs => some (v :: vs)
    | _, _ => none
  | [_] => none

/-- ObjectId::from_str (driver/src/common.rs, lines 19 to 36): reject
strings whose byte length is not 24, then parse the 12 two-byte chunks. -/
def ObjectId.from_str (s : List Nat) : Option ObjectId :=
  if s.length ≠ 24 then none
  else (ObjectId.from_str_chunks s).map ObjectId.mk

/-- One lowercase hexadecimal digit byte for a value below 16. -/
def hex_lower_digit (n : Nat) : Nat :=
  if n < 10 then 48 + n else 87 + n

/-- The digit loop of the Display impl of ObjectId: each data byte is
written with the 02x format, two lowercase hexadecimal digits. -/
def ObjectId.to_string_bytes : List Nat → List Nat
  | [] => []
  | d :: rest =>
    hex_lower_digit (d / 16) :: hex_lower_digit (d % 16) ::
      ObjectId.to_string_bytes rest

/-- The Display impl of ObjectId (driver/src/common.rs, lines 38 to 46). -/
def ObjectId.to_string (id : ObjectId) : List Nat :=
  ObjectId.to_string_bytes id.data

/-- Byte string of the 24-character input +123456789abcdef01234567, which
contains the non-hexadecimal byte 43 (the plus sign). -/
def plusIdStr : List Nat :=
  [43, 49, 50, 51, 52, 53, 54, 55, 56, 57, 97, 98,
   99, 100, 101, 102, 48, 49, 50, 51, 52, 53, 54, 55]

end Driver

/-! ## judge crate: tokenized reader (judge/src/engine/io.rs)

The 4 KiB block buffering of TokenizedReader is transparent to the byte
sequence it yields, so the reader state is modelled as the list of bytes
not yet consumed. -/

/-- The separator bytes of read_token: space, carriage return, line feed
and horizontal tab (judge/src/engine/io.rs, line 143). -/
def is_separator_byte (b : Nat) : Bool :=
  b = 32 || b = 13 || b = 10 || b = 9

/-- Whether a byte is a UTF-8 continuation byte. -/
def is_utf8_cont (b : Nat) : Bool :=
  128 ≤ b && b ≤ 191

/-- The UTF-8 validation performed by String::from_utf8 of the Rust
standard library: ASCII, or a well-formed 2, 3 or 4 byte sequence with the
standard restrictions against overlong encodings, surrogates and values
above 0x10FFFF. -/
def utf8_valid : List Nat → Bool
  | [] => true
  | b :: rest =>
    if b ≤ 127 then utf8_valid rest
    else if 194 ≤ b && b ≤ 223 then
      match rest with
      | c :: r => is_utf8_cont c && utf8_valid r
      | [] => false
    else if 224 ≤ b && b ≤ 239 then
      match rest with
      | c :: d :: r =>
        (if b = 224 then 160 ≤ c && c ≤ 191
         else if b = 237 then 128 ≤ c && c ≤ 159
         else is_utf8_cont c) && is_utf8_cont d && utf8_valid r
      | _ => false
    else if 240 ≤ b && b ≤ 244 then
      match rest with
      | c :: d :: e :: r =>
        (if b = 240 then 144 ≤ c && c ≤ 191
         else if b = 244 then 128 ≤ c && c ≤ 143
         else is_utf8_cont c) && is_utf8_cont d && is_utf8_cont e &&
        utf8_valid r
      | _ => false
    else false
termination_by l => l.length

/-- The token accumulation loop of read_token (judge/src/engine/io.rs,
lines 155 to 162), after the first non-separator byte: bytes are pushed
until a separator (which is consumed) or end of input. Returns the pushed
bytes and the unconsumed remainder. -/
def token_scan : List Nat → List Nat × List Nat
  | [] => ([], [])
  | b :: rest =>
    if is_separator_byte b then ([], rest)
    else
      let p := token_scan rest
      (b :: p.1, p.2)

/-- TokenizedReader::read_token (judge/src/engine/io.rs, lines 141 to
168): skip leading separators (end of input there yields Ok(None)), then
accumulate the token and decode it as UTF-8; an invalid token is an
InvalidData error, modelled as Except.error. The returned pair is the
token and the bytes left in the reader. -/
def read_token (input : List Nat) : Except Unit (Option (List Nat) × List Nat) :=
  match input.dropWhile is_separator_byte with
  | [] => Except.ok (none, [])
  | b :: rest =>
    let p := token_scan rest
    if utf8_valid (b :: p.1) then Except.ok (some (b :: p.1), p.2)
    else Except.error ()

end WaveJudge

namespace WaveJudge

/-! ## Theorems -/

theorem Verdict.and_not_accepted (v w : Verdict)
    (h : v.is_accepted = false) : v.and w = v := by
  simp [Verdict.and, h]

theorem Verdict.and_accepted (v w : Verdict)
    (h : v.is_accepted = true) : v.and w = w := by
  simp [Verdict.and, h]

theorem Verdict.is_accepted_iff (v : Verdict) :
    v.is_accepted = true ↔ v = Verdict.Accepted := by
  cases v <;> simp [Verdict.is_accepted]

theorem add_all_test_suite (res : JudgeResult) (rs : List TestCaseResult) :
    (res.add_all rs).test_suite = res.test_suite ++ rs := by
  induction rs generalizing res with
  | nil => simp [JudgeResult.add_all]
  | cons r rest ih =>
    simp [JudgeResult.add_all, List.foldl_cons] at *
    rw [ih]
    simp [JudgeResult.add_test_case_result]

theorem add_all_verdict (res : JudgeResult) (rs : List TestCaseResult) :
    (res.add_all rs).verdict =
      rs.foldl (fun v r => v.and r.verdict) res.verdict := by
  induction rs generalizing res with
  | nil => simp [JudgeResult.add_all]
  | cons r rest ih =>
    simp only [JudgeResult.add_all, List.foldl_cons] at *
    rw [ih]
    rfl

theorem foldl_and_not_accepted (v : Verdict) (rs : List TestCaseResult)
    (h : v.is_accepted = false) :
    rs.foldl (fun v r => v.and r.verdict) v = v := by
  induction rs with
  | nil => rfl
  | cons r rest ih =>
    simp only [List.foldl_cons]
    rw [Verdict.and_not_accepted v r.verdict h]
    exact ih

theorem foldl_and_first_non_accepted (rs : List TestCaseResult) :
    rs.foldl (fun v r => v.and r.verdict) Verdict.Accepted =
      (firstNonAccepted rs).getD Verdict.Accepted := by
  induction rs with
  | nil => rfl
  | cons r rest ih =>
    simp only [List.foldl_cons]
    rw [Verdict.and_accepted Verdict.Accepted r.verdict rfl]
    by_cases h : r.verdict.is_accepted = true
    · have hr : r.verdict = Verdict.Accepted := (Verdict.is_accepted_iff _).mp h
      rw [hr, ih]
      have hfind : firstNonAccepted (r :: rest) = firstNonAccepted rest := by
        simp only [firstNonAccepted]
        rw [List.find?_cons_of_neg]
        simp [h]
      rw [hfind]
    · have h' : r.verdict.is_accepted = false := by
        cases hv : r.verdict.is_accepted
        · rfl
        · exact absurd hv h
      rw [foldl_and_not_accepted _ _ h']
      have hfind : firstNonAccepted (r :: rest) = some r.verdict := by
        simp only [firstNonAccepted]
        rw [List.find?_cons_of_pos]
        · rfl
        · simp [h']
      rw [hfind]
      rfl

/-- C7: for every JudgeResult built from the empty JudgeResult by a
sequence of add_test_case_result calls, the recorded test suite is exactly
the added list, the overall verdict is the fold of the test case verdicts
under Verdict::and with Accepted as identity, it is Accepted exactly when
every added result is Accepted, and otherwise it equals the verdict of the
first non-Accepted test case result. -/
theorem judge_result_verdict_fold (rs : List TestCaseResult) :
    (JudgeResult.new.add_all rs).test_suite = rs ∧
    (JudgeResult.new.add_all rs).verdict = foldVerdicts rs ∧
    ((JudgeResult.new.add_all rs).verdict = Verdict.Accepted ↔
      ∀ r ∈ rs, r.verdict = Verdict.Accepted) ∧
    (JudgeResult.new.add_all rs).verdict =
      (firstNonAccepted rs).getD Verdict.Accepted := by
  have hsuite : (JudgeResult.new.add_all rs).test_suite = rs := by
    simpa [JudgeResult.new] using add_all_test_suite JudgeResult.new rs
  have hfold : (JudgeResult.new.add_all rs).verdict = foldVerdicts rs := by
    simpa [JudgeResult.new, foldVerdicts] using add_all_verdict JudgeResult.new rs
  have hfirst : (JudgeResult.new.add_all rs).verdict =
      (firstNonAccepted rs).getD Verdict.Accepted := by
    rw [hfold, foldVerdicts, foldl_and_first_non_accepted]
  refine ⟨hsuite, hfold, ?_, hfirst⟩
  rw [hfirst]
  constructor
  · intro h r hr
    by_contra hne
    have hnacc : (!r.verdict.is_accepted) = true := by
      cases hv : r.verdict.is_accepted
      · rfl
      · exact absurd ((Verdict.is_accepted_iff r.verdict).mp hv) hne
    have hex : ∃ x, x ∈ rs ∧ (!x.verdict.is_accepted) = true := ⟨r, hr, hnacc⟩
    have hsome : (rs.find? (fun r => !r.verdict.is_accepted)).isSome := by
      rw [List.find?_isSome]
      exact hex
    obtain ⟨x, hx⟩ := Option.isSome_iff_exists.mp hsome
    have hxp := List.find?_some hx
    rw [firstNonAccepted, hx] at h
    simp only [Option.map_some', Option.getD_some] at h
    rw [h] at hxp
    simp [Verdict.is_accepted] at hxp
  · intro h
    have : rs.find? (fun r => !r.verdict.is_accepted) = none := by
      rw [List.find?_eq_none]
      intro x hx
      simp [h x hx, Verdict.is_accepted]
    simp [firstNonAccepted, this]

/-- Claim C1, behaviour of the code at the failing input: on a two-case
test suite whose first case is judged WrongAnswer, JudgeContext::execute
of judge/src/engine/mod.rs executes and records both test cases (so an
element before the last is not Accepted and the case after the first
non-Accepted one is executed), while the superseded fail-fast loop
JudgeEngine::judge_on_context of judge/src/engine.rs stops after the first
case, as the claim states. -/
theorem execute_runs_past_failure :
    (JudgeContext.execute [tcDesc1, tcDesc2] execWaFirst).test_suite.length = 2 ∧
    ((JudgeContext.execute [tcDesc1, tcDesc2] execWaFirst).test_suite.map
      TestCaseResult.verdict) = [Verdict.WrongAnswer, Verdict.Accepted] ∧
    ((JudgeEngine.judge_on_context [tcDesc1, tcDesc2] execWaFirst).test_suite.map
      TestCaseResult.verdict) = [Verdict.WrongAnswer] := by
  refine ⟨rfl, rfl, rfl⟩

/-- Claim C5, behaviour of the code at the failing input: with an engine
configuration that specifies all three jury limits (as the fork server
always does), apply_jury_bdr_config copies the real time and memory limits
and appends the jury syscall whitelist, but leaves the jury cpu time limit
unset because its guard tests is_none instead of is_some. -/
theorem apply_jury_bdr_config_drops_cpu_limit :
    juryConfigEx.jury_cpu_time_limit = some 1000000000 ∧
    ((JudgeEngine.apply_jury_bdr_config juryConfigEx juryBuilderEx).map
      (fun b => b.limits.cpu_time_limit)) = some none ∧
    ((JudgeEngine.apply_jury_bdr_config juryConfigEx juryBuilderEx).map
      (fun b => b.limits.real_time_limit)) = some (some 3000000000) ∧
    ((JudgeEngine.apply_jury_bdr_config juryConfigEx juryBuilderEx).map
      (fun b => b.limits.memory_limit)) = some (some (256 * 1024 * 1024)) ∧
    ((JudgeEngine.apply_jury_bdr_config juryConfigEx juryBuilderEx).map
      (fun b => b.syscall_whitelist)) = some [readSyscall] := by
  refine ⟨rfl, rfl, rfl, rfl, rfl⟩

/-- Claim C6, counterexample: for a non-empty one-element whitelist the
installed seccomp filter has default action SCMP_ACT_KILL, the kill-thread
action, not kill-process as the claim states. -/
theorem apply_seccomp_default_is_kill_thread :
    ((ProcessBuilder.apply_seccomp builderWithWhitelist).map
      SeccompFilterSpec.default_action) = some Action.KillThread ∧
    Action.KillThread ≠ Action.KillProcess := by
  refine ⟨rfl, by decide⟩

/-- Claim C6, amended: for every child process builder, an empty syscall
whitelist installs no seccomp filter, and a non-empty whitelist installs a
filter whose default action is kill-thread (SCMP_ACT_KILL) with exactly
one allow rule per whitelisted syscall id, in order. -/
theorem apply_seccomp_spec (b : ProcessBuilder) :
    (b.syscall_whitelist.isEmpty = true → b.apply_seccomp = none) ∧
    (b.syscall_whitelist.isEmpty = false →
      ∃ filter, b.apply_seccomp = some filter ∧
        filter.default_action = Action.KillThread ∧
        filter.rules.length = b.syscall_whitelist.length ∧
        filter.rules.map SyscallFilter.syscall =
          b.syscall_whitelist.map SystemCall.id ∧
        ∀ rule ∈ filter.rules, rule.action = Action.Allow) := by
  constructor
  · intro h
    simp [ProcessBuilder.apply_seccomp, h]
  · intro h
    refine ⟨apply_syscall_filters
      (b.syscall_whitelist.map
        (fun syscall => { syscall := syscall.id, action := Action.Allow })),
      ?_, rfl, ?_, ?_, ?_⟩
    · simp [ProcessBuilder.apply_seccomp, h]
    · simp [apply_syscall_filters]
    · simp [apply_syscall_filters]
    · intro rule hrule
      simp only [apply_syscall_filters, List.mem_map] at hrule
      obtain ⟨sc, _, hsc⟩ := hrule
      rw [← hsc]

/-- Claim C2, counterexample: for a Special Judge problem whose cached
metadata has jury_exec_path None, the worker short-circuit reports verdict
JudgeFailed, not CheckerFailed as the claim states. -/
theorem jury_guard_not_checker_failed :
    Driver.problemJuryFailedEx.judge_mode = Driver.JudgeMode.SpecialJudge ∧
    Driver.problemJuryFailedEx.jury_exec_path = none ∧
    ((Driver.handle_submission_jury_guard Driver.problemJuryFailedEx).map
      Driver.SubmissionJudgeResult.verdict) = some Driver.Verdict.JudgeFailed ∧
    Driver.Verdict.JudgeFailed ≠ Driver.Verdict.CheckerFailed := by
  refine ⟨rfl, rfl, rfl, by decide⟩

/-- Claim C2, amended: for every submission whose problem is in Special
Judge or Interactive mode and whose cached metadata has jury_exec_path
None, the worker short-circuits with an Ok result (so the submission is
still reported), whose verdict is JudgeFailed, whose test case list is
empty, and whose compiler message explains the jury compile failure; the
same JudgeFailed verdict is used in both modes. -/
theorem jury_guard_reports_judge_failed (p : Driver.ProblemMetadata)
    (hjury : p.has_jury = true) (hfail : p.jury_exec_path = none) :
    Driver.handle_submission_jury_guard p =
      some (Driver.SubmissionJudgeResult.failure
        "Answer checker did not compiled successfully.") ∧
    ((Driver.handle_submission_jury_guard p).map
      Driver.SubmissionJudgeResult.verdict) = some Driver.Verdict.JudgeFailed ∧
    ((Driver.handle_submission_jury_guard p).map
      Driver.SubmissionJudgeResult.test_cases) = some [] := by
  have hcond : p.has_jury ∧ ¬p.jury_compile_succeeded := by
    constructor
    · exact hjury
    · simp [Driver.ProblemMetadata.jury_compile_succeeded, hfail]
  have hguard : Driver.handle_submission_jury_guard p =
      some (Driver.SubmissionJudgeResult.failure
        "Answer checker did not compiled successfully.") := by
    simp only [Driver.handle_submission_jury_guard, if_pos hcond]
  refine ⟨hguard, ?_, ?_⟩
  · rw [hguard]; rfl
  · rw [hguard]; rfl

/-- Claim C2, witness: the amended theorem applied to a concrete
Interactive problem with a failed jury compile. -/
theorem jury_guard_reports_judge_failed_w :
    ((Driver.handle_submission_jury_guard
      Driver.problemInteractiveFailedEx).map
      Driver.SubmissionJudgeResult.verdict) = some Driver.Verdict.JudgeFailed :=
  (jury_guard_reports_judge_failed Driver.problemInteractiveFailedEx rfl rfl).2.1

/-- Claim C3, behaviour of the code at the failing input: for a jury
compilation result in the shape CompilationResult::succeed produces
(succeeded true, output file present, compiler output None),
ProblemStore::compile_jury returns Ok(None) because it tests compiler_out
instead of output_file, so ProblemStore::get stores jury_exec_path None
instead of the copied binary path. -/
theorem compile_jury_drops_successful_result :
    compileOkEx.succeeded = true ∧
    compileOkEx.output_file = some "/tmp/xyz/jury.out" ∧
    compileOkEx.compiler_out = none ∧
    Driver.ProblemStore.compile_jury compileOkEx = some none ∧
    Driver.ProblemStore.get_jury_exec_path "/var/jury"
      "0123456789abcdef01234567" compileOkEx = some none := by
  refine ⟨rfl, rfl, rfl, rfl, rfl⟩

/-- Claim C4, behaviour of the code at the failing input: when compilation
of the judgee succeeds, the CompilationResult carries the output file path
and no compiler message, and the compile stage of handle_submission
reaches the panicking expect on compiler_out instead of reading
output_file. -/
theorem compile_stage_panics_on_success :
    (CompilationResult.succeed "/tmp/a.out").succeeded = true ∧
    (CompilationResult.succeed "/tmp/a.out").compiler_out = none ∧
    (CompilationResult.succeed "/tmp/a.out").output_file = some "/tmp/a.out" ∧
    Driver.handle_submission_compile_stage (CompilationResult.succeed "/tmp/a.out")
      = Driver.CompileStageOutcome.panicked := by
  refine ⟨rfl, rfl, rfl, rfl⟩

theorem daemon_check_limits_ne_not_exited
    (limits : ProcessResourceLimits) (usage : ProcessResourceUsage)
    (t : Nat) :
    daemon_check_limits limits usage t ≠ some ProcessExitStatus.NotExited := by
  unfold daemon_check_limits
  split_ifs <;> simp

theorem daemon_main_ok_ne_not_exited :
    ∀ (trace : List DaemonStep) (limits : Option ProcessResourceLimits)
      (rusage : Option ProcessResourceUsage) (status : ProcessExitStatus),
      daemon_main limits trace rusage = some (Except.ok status) →
      status ≠ ProcessExitStatus.NotExited := by
  intro trace
  induction trace with
  | nil =>
    intro limits rusage status h
    simp [daemon_main] at h
  | cons step rest ih =>
    intro limits rusage status h
    rw [daemon_main] at h
    cases hw : step.wait with
    | error errno =>
      rw [hw] at h
      simp at h
    | ok ws =>
      rw [hw] at h
      cases ws with
      | Exited code =>
        intro hne
        rw [hne] at h
        simp at h
      | Signaled sig =>
        intro hne
        rw [hne] at h
        by_cases hsys : sig = SIGSYS
        · simp [hsys] at h
        · by_cases husr : sig = SIGUSR1
          · simp [hsys, husr, SIGUSR1, SIGSYS] at h
          · simp [hsys, husr] at h
      | StillAlive =>
        cases hs : step.sample with
        | error errno =>
          rw [hs] at h
          simp at h
        | ok current =>
          rw [hs] at h
          simp only at h
          split at h
          case _ daemon_limits =>
            split at h
            case _ tripped hc =>
              intro hne
              rw [hne] at h
              simp at h
              rw [h] at hc
              exact daemon_check_limits_ne_not_exited _ _ _ hc
            case _ hc => exact ih _ _ status h
          case _ => exact ih _ _ status h

/-- Claim C8, counterexample: when the child kills itself with SIGUSR1
(failed startup), daemon_main returns an error, the daemon thread panics
without storing a status, wait_for_exit still returns (with Err), and a
subsequent exit_status call yields NotExited, contradicting the claim that
a returned wait never leaves NotExited observable. -/
theorem wait_for_exit_err_leaves_not_exited :
    wait_for_exit_returns none traceStartupFailed = true ∧
    wait_for_exit_ok none traceStartupFailed = false ∧
    Process.exit_status none traceStartupFailed = ProcessExitStatus.NotExited := by
  refine ⟨rfl, rfl, rfl⟩

/-- Claim C8, amended: for every Process handle on which wait_for_exit has
returned Ok (the daemon thread finished without panicking), a subsequent
exit_status call never returns NotExited: the daemon stores a status other
than NotExited before the join completes. -/
theorem wait_for_exit_ok_not_exited (limits : Option ProcessResourceLimits)
    (trace : List DaemonStep) (h : wait_for_exit_ok limits trace = true) :
    Process.exit_status limits trace ≠ ProcessExitStatus.NotExited := by
  unfold wait_for_exit_ok at h
  cases hd : daemon_main limits trace none with
  | none =>
    rw [hd] at h
    simp at h
  | some r =>
    cases r with
    | error e =>
      rw [hd] at h
      simp at h
    | ok s =>
      have hne := daemon_main_ok_ne_not_exited trace limits none s hd
      unfold Process.exit_status daemon_thread_stored_status
      rw [hd]
      exact hne

/-- Claim C8, witness: the amended theorem applied to a trace in which the
child exits normally with code 0. -/
theorem wait_for_exit_ok_not_exited_w :
    Process.exit_status none traceExitZero ≠ ProcessExitStatus.NotExited :=
  wait_for_exit_ok_not_exited none traceExitZero rfl

theorem token_scan_fst_eq_takeWhile (l : List Nat) :
    (token_scan l).1 = l.takeWhile (fun b => !is_separator_byte b) := by
  induction l with
  | nil => rfl
  | cons b rest ih =>
    rw [List.takeWhile_cons]
    by_cases hb : is_separator_byte b
    · simp [token_scan, hb]
    · simp [token_scan, hb, ih]

theorem dropWhile_head_false (p : Nat → Bool) (l : List Nat) (b : Nat)
    (rest : List Nat) (h : l.dropWhile p = b :: rest) : p b = false := by
  induction l with
  | nil => simp at h
  | cons a t ih =>
    rw [List.dropWhile_cons] at h
    by_cases hp : p a
    · rw [if_pos hp] at h
      exact ih h
    · rw [if_neg hp] at h
      cases h
      cases hpa : p b
      · rfl
      · exact absurd hpa hp

/-- Claim C10: for every input stream, read_token returns Ok(None) exactly
when the remaining input consists only of separator bytes (including the
empty input), and every returned token is a non-empty byte string that
contains none of the separator bytes space, carriage return, line feed and
tab. -/
theorem read_token_spec (input : List Nat) :
    (read_token input = Except.ok (none, ([] : List Nat)) ↔
      input.all is_separator_byte = true) ∧
    (∀ tok rem, read_token input = Except.ok (some tok, rem) →
      tok ≠ [] ∧ tok.all (fun b => !is_separator_byte b) = true) := by
  cases hd : input.dropWhile is_separator_byte with
  | nil =>
    have hall : input.all is_separator_byte = true := by
      rw [List.all_eq_true]
      exact List.dropWhile_eq_nil_iff.mp hd
    constructor
    · exact ⟨fun _ => hall, fun _ => by simp [read_token, hd]⟩
    · intro tok rem h
      simp [read_token, hd] at h
  | cons b rest =>
    have hbsep : is_separator_byte b = false :=
      dropWhile_head_false is_separator_byte input b rest hd
    have hbmem : b ∈ input :=
      (List.dropWhile_sublist is_separator_byte).subset
        (by rw [hd]; exact List.mem_cons_self b rest)
    have hallfalse : input.all is_separator_byte ≠ true := by
      intro hall
      rw [List.all_eq_true] at hall
      rw [hall b hbmem] at hbsep
      exact absurd hbsep (by simp)
    constructor
    · constructor
      · intro h
        exfalso
        simp only [read_token, hd] at h
        by_cases hv : utf8_valid (b :: (token_scan rest).1)
        · rw [if_pos hv] at h
          simp at h
        · rw [if_neg hv] at h
          simp at h
      · intro h
        exact absurd h hallfalse
    · intro tok rem h
      simp only [read_token, hd] at h
      by_cases hv : utf8_valid (b :: (token_scan rest).1)
      · rw [if_pos hv] at h
        have htok : some (b :: (token_scan rest).1) = some tok := by
          have := congrArg (fun r => match r with
            | Except.ok (t, _) => t
            | Except.error _ => none) h
          simpa using this
        have htok' : b :: (token_scan rest).1 = tok := by
          injection htok
        constructor
        · rw [← htok']
          simp
        · rw [← htok', List.all_cons]
          have h1 : (!is_separator_byte b) = true := by rw [hbsep]; rfl
          have h2 : ((token_scan rest).1.all fun b => !is_separator_byte b)
              = true := by
            rw [List.all_eq_true]
            intro x hx
            rw [token_scan_fst_eq_takeWhile] at hx
            exact List.mem_takeWhile_imp (p := fun b => !is_separator_byte b) hx
          rw [h1, h2]
          rfl
      · rw [if_neg hv] at h
        simp at h

theorem is_hex_digit_byte_ranges (b : Nat)
    (h : Driver.is_hex_digit_byte b = true) :
    (48 ≤ b ∧ b ≤ 57) ∨ (97 ≤ b ∧ b ≤ 102) ∨ (65 ≤ b ∧ b ≤ 70) := by
  have h' : ((48 ≤ b ∧ b ≤ 57) ∨ (97 ≤ b ∧ b ≤ 102)) ∨ (65 ≤ b ∧ b ≤ 70) := by
    simpa [Driver.is_hex_digit_byte, Bool.or_eq_true, Bool.and_eq_true,
      decide_eq_true_eq] using h
  tauto

theorem hex_not_plus (b : Nat) (h : Driver.is_hex_digit_byte b = true) :
    b ≠ 43 := by
  have h' := is_hex_digit_byte_ranges b h
  omega

theorem hex_digit_value_none (b : Nat)
    (h : Driver.is_hex_digit_byte b = false) :
    Driver.hex_digit_value b = none := by
  have h' : ¬((48 ≤ b ∧ b ≤ 57) ∨ (97 ≤ b ∧ b ≤ 102) ∨ (65 ≤ b ∧ b ≤ 70)) := by
    intro hc
    have : Driver.is_hex_digit_byte b = true := by
      simp [Driver.is_hex_digit_byte, Bool.or_eq_true, Bool.and_eq_true,
        decide_eq_true_eq]
      omega
    rw [this] at h
    exact absurd h (by simp)
  simp only [Driver.hex_digit_value]
  split_ifs with h1 h2 h3
  · exact absurd (Or.inl h1) h'
  · exact absurd (Or.inr (Or.inl h2)) h'
  · exact absurd (Or.inr (Or.inr h3)) h'
  · rfl

theorem hex_digit_value_lt (b v : Nat)
    (h : Driver.hex_digit_value b = some v) : v < 16 := by
  simp only [Driver.hex_digit_value] at h
  split_ifs at h with h1 h2 h3 <;> simp only [Option.some.injEq] at h <;> omega

theorem hex_digit_value_some (b : Nat)
    (h : Driver.is_hex_digit_byte b = true) :
    ∃ v, Driver.hex_digit_value b = some v ∧ v < 16 ∧
      Driver.hex_lower_digit v = Driver.ascii_lowercase_byte b := by
  rcases is_hex_digit_byte_ranges b h with h1 | h2 | h3
  · refine ⟨b - 48, ?_, by omega, ?_⟩
    · simp only [Driver.hex_digit_value]
      rw [if_pos h1]
    · simp only [Driver.hex_lower_digit, Driver.ascii_lowercase_byte]
      split_ifs <;> omega
  · refine ⟨b - 97 + 10, ?_, by omega, ?_⟩
    · simp only [Driver.hex_digit_value]
      rw [if_neg (by omega), if_pos h2]
    · simp only [Driver.hex_lower_digit, Driver.ascii_lowercase_byte]
      split_ifs <;> omega
  · refine ⟨b - 65 + 10, ?_, by omega, ?_⟩
    · simp only [Driver.hex_digit_value]
      rw [if_neg (by omega), if_neg (by omega), if_pos h3]
    · simp only [Driver.hex_lower_digit, Driver.ascii_lowercase_byte]
      split_ifs <;> omega

theorem u8_two_digits (a b va vb : Nat)
    (ha : Driver.hex_digit_value a = some va)
    (hb : Driver.hex_digit_value b = some vb)
    (hva : va < 16) (hvb : vb < 16) (ha43 : a ≠ 43) :
    Driver.u8_from_str_radix_16 [a, b] = some (va * 16 + vb) := by
  simp only [Driver.u8_from_str_radix_16, if_neg ha43, List.isEmpty_cons,
    Bool.false_eq_true, if_false, List.foldl, ha, hb]
  rw [if_pos (by omega : 0 * 16 + va ≤ 255)]
  show (if (0 * 16 + va) * 16 + vb ≤ 255
      then some ((0 * 16 + va) * 16 + vb) else none) = some (va * 16 + vb)
  rw [if_pos (by omega : (0 * 16 + va) * 16 + vb ≤ 255)]
  congr 1
  omega

theorem u8_chunk_hex (a b : Nat)
    (ha : Driver.is_hex_digit_byte a = true)
    (hb : Driver.is_hex_digit_byte b = true) :
    ∃ v, Driver.u8_from_str_radix_16 [a, b] = some v ∧ v < 256 ∧
      Driver.hex_lower_digit (v / 16) = Driver.ascii_lowercase_byte a ∧
      Driver.hex_lower_digit (v % 16) = Driver.ascii_lowercase_byte b := by
  obtain ⟨va, hva, hva16, hla⟩ := hex_digit_value_some a ha
  obtain ⟨vb, hvb, hvb16, hlb⟩ := hex_digit_value_some b hb
  refine ⟨va * 16 + vb,
    u8_two_digits a b va vb hva hvb hva16 hvb16 (hex_not_plus a ha),
    by omega, ?_, ?_⟩
  · have hq : (va * 16 + vb) / 16 = va := by omega
    rw [hq, hla]
  · have hr : (va * 16 + vb) % 16 = vb := by omega
    rw [hr, hlb]

theorem from_str_chunks_hex : ∀ (s : List Nat),
    s.all Driver.is_hex_digit_byte = true → s.length % 2 = 0 →
    ∃ vs, Driver.ObjectId.from_str_chunks s = some vs ∧
      Driver.ObjectId.to_string_bytes vs = s.map Driver.ascii_lowercase_byte ∧
      2 * vs.length = s.length
  | [], _, _ => ⟨[], rfl, rfl, rfl⟩
  | [_], _, hlen => by simp at hlen
  | a :: b :: rest, hall, hlen => by
    simp only [List.all_cons, Bool.and_eq_true] at hall
    obtain ⟨ha, hb, hrest⟩ := hall
    obtain ⟨v, hv, _, hvhi, hvlo⟩ := u8_chunk_hex a b ha hb
    obtain ⟨vs, h1, h2, h3⟩ := from_str_chunks_hex rest hrest (by
      simp only [List.length_cons] at hlen ⊢
      omega)
    refine ⟨v :: vs, ?_, ?_, ?_⟩
    · simp only [Driver.ObjectId.from_str_chunks]
      rw [hv, h1]
    · simp only [Driver.ObjectId.to_string_bytes, List.map_cons]
      rw [hvhi, hvlo, h2]
    · simp only [List.length_cons]
      omega

theorem hex_lower_digit_ne_plus (x : Nat) :
    Driver.hex_lower_digit x ≠ 43 := by
  simp only [Driver.hex_lower_digit]
  split_ifs <;> omega

theorem hex_digit_value_hex_lower (x : Nat) (h : x < 16) :
    Driver.hex_digit_value (Driver.hex_lower_digit x) = some x := by
  simp only [Driver.hex_lower_digit, Driver.hex_digit_value]
  split_ifs <;>
    first
      | (exfalso; omega)
      | (congr 1; omega)

theorem u8_chunk_of_byte (d : Nat) (hd : d < 256) :
    Driver.u8_from_str_radix_16
      [Driver.hex_lower_digit (d / 16), Driver.hex_lower_digit (d % 16)]
      = some d := by
  have h1 := hex_digit_value_hex_lower (d / 16) (by omega)
  have h2 := hex_digit_value_hex_lower (d % 16) (by omega)
  have hmain := u8_two_digits _ _ _ _ h1 h2 (by omega) (by omega)
    (hex_lower_digit_ne_plus _)
  rw [hmain]
  congr 1
  omega

theorem to_string_bytes_length : ∀ ds : List Nat,
    (Driver.ObjectId.to_string_bytes ds).length = 2 * ds.length
  | [] => rfl
  | d :: rest => by
    simp only [Driver.ObjectId.to_string_bytes, List.length_cons,
      to_string_bytes_length rest]
    omega

theorem from_str_chunks_to_string : ∀ (ds : List Nat),
    (∀ b ∈ ds, b < 256) →
    Driver.ObjectId.from_str_chunks (Driver.ObjectId.to_string_bytes ds)
      = some ds
  | [], _ => rfl
  | d :: rest, hb => by
    have hd : d < 256 := hb d (List.mem_cons_self d rest)
    have hrest := from_str_chunks_to_string rest
      (fun x hx => hb x (List.mem_cons_of_mem d hx))
    simp only [Driver.ObjectId.to_string_bytes,
      Driver.ObjectId.from_str_chunks]
    rw [u8_chunk_of_byte d hd, hrest]

theorem u8_chunk_bad_first (a b : Nat)
    (ha : Driver.is_hex_digit_byte a = false) (ha43 : a ≠ 43) :
    Driver.u8_from_str_radix_16 [a, b] = none := by
  have hva := hex_digit_value_none a ha
  simp [Driver.u8_from_str_radix_16, if_neg ha43, hva]

theorem u8_chunk_bad_second (a b : Nat)
    (hb : Driver.is_hex_digit_byte b = false) :
    Driver.u8_from_str_radix_16 [a, b] = none := by
  have hvb := hex_digit_value_none b hb
  by_cases ha43 : a = 43
  · simp [Driver.u8_from_str_radix_16, ha43, hvb]
  · cases hva : Driver.hex_digit_value a with
    | none => simp [Driver.u8_from_str_radix_16, if_neg ha43, hva]
    | some va =>
      simp only [Driver.u8_from_str_radix_16, if_neg ha43, List.isEmpty_cons,
        Bool.false_eq_true, if_false, List.foldl, hva, hvb]
      split <;> simp_all

theorem from_str_chunks_bad : ∀ (s : List Nat),
    (∃ b ∈ s, Driver.is_hex_digit_byte b = false ∧ b ≠ 43) →
    Driver.ObjectId.from_str_chunks s = none
  | [], h => by simp at h
  | [_], _ => rfl
  | a :: b :: rest, h => by
    obtain ⟨c, hc, hbad, hc43⟩ := h
    rw [List.mem_cons] at hc
    rcases hc with hca | hc
    · subst hca
      simp only [Driver.ObjectId.from_str_chunks]
      rw [u8_chunk_bad_first c b hbad hc43]
    · rw [List.mem_cons] at hc
      rcases hc with hcb | hc
      · subst hcb
        simp only [Driver.ObjectId.from_str_chunks]
        rw [u8_chunk_bad_second a c hbad]
      · have hres := from_str_chunks_bad rest ⟨c, hc, hbad, hc43⟩
        simp only [Driver.ObjectId.from_str_chunks]
        rw [hres]
        cases Driver.u8_from_str_radix_16 [a, b] <;> rfl

/-- Claim C9, counterexample: the 24-character string
+123456789abcdef01234567 contains a non-hexadecimal character (the plus
sign), yet ObjectId parsing succeeds on it, because u8::from_str_radix
accepts an optional leading plus sign in every two-character chunk. -/
theorem object_id_parses_plus_string :
    Driver.plusIdStr.length = 24 ∧
    Driver.plusIdStr.all Driver.is_hex_digit_byte = false ∧
    (Driver.ObjectId.from_str Driver.plusIdStr).isSome = true := by
  refine ⟨rfl, rfl, rfl⟩

/-- Claim C9, amended: for every 24-character hexadecimal string s,
ObjectId parsing succeeds and formatting the parsed value yields the
lowercase of s; for every ObjectId value, parsing the formatted string
yields the value again; parsing fails for every string whose length is not
24, and for every string that contains a character that is neither a
hexadecimal digit nor the plus sign (which u8::from_str_radix accepts as
an optional leading sign of a chunk). -/
theorem object_id_round_trip :
    (∀ s : List Nat, s.length = 24 → s.all Driver.is_hex_digit_byte = true →
      ∃ id, Driver.ObjectId.from_str s = some id ∧
        id.to_string = s.map Driver.ascii_lowercase_byte) ∧
    (∀ id : Driver.ObjectId, id.data.length = 12 →
      (∀ b ∈ id.data, b < 256) →
      Driver.ObjectId.from_str id.to_string = some id) ∧
    (∀ s : List Nat, s.length ≠ 24 → Driver.ObjectId.from_str s = none) ∧
    (∀ s : List Nat,
      (∃ b ∈ s, Driver.is_hex_digit_byte b = false ∧ b ≠ 43) →
      Driver.ObjectId.from_str s = none) := by
  refine ⟨?_, ?_, ?_, ?_⟩
  · intro s hlen hall
    obtain ⟨vs, h1, h2, _⟩ := from_str_chunks_hex s hall (by omega)
    refine ⟨⟨vs⟩, ?_, ?_⟩
    · simp [Driver.ObjectId.from_str, hlen, h1]
    · simpa [Driver.ObjectId.to_string] using h2
  · intro id hlen hbound
    have hlen2 : (Driver.ObjectId.to_string id).length = 24 := by
      simp [Driver.ObjectId.to_string, to_string_bytes_length, hlen]
    have hchunks := from_str_chunks_to_string id.data hbound
    obtain ⟨data⟩ := id
    simp only [Driver.ObjectId.from_str, hlen2]
    simp only [Driver.ObjectId.to_string] at hchunks ⊢
    rw [hchunks]
    rfl
  · intro s h
    simp [Driver.ObjectId.from_str, h]
  · intro s hbad
    by_cases hlen : s.length = 24
    · have hchunks := from_str_chunks_bad s hbad
      simp [Driver.ObjectId.from_str, hlen, hchunks]
    · simp [Driver.ObjectId.from_str, hlen]

end WaveJudge
